import Mathlib

/-!
Verification development for the Kisaan Saathi diagnostic reasoning engine.

The definitions below are a shallow embedding of the engine's core functions:
symptom extraction (`detectSymptoms`), belief aggregation
(`calculateDiseaseProbabilities`), next-question selection (`getNextQuestion`)
and advisory composition (`composeAdvisory`), together with the surrounding
data model (symptoms, diseases, the symptom-disease weight table, diagnostic
questions, conversations, advisories).  Scores are modelled as rationals.
JavaScript records (`Record<string, number>`) are modelled as association
lists in insertion order; `Array.prototype.sort` with a score comparator is
modelled by insertion sort with the corresponding relation.
-/

namespace KisaanSaathi

/-- Row of the `symptoms` table.  Cue text for matching is derived from the
localized description string. -/
structure Symptom where
  id : Nat
  symptom_code : String
  description_en : String
  description_hi : String
  deriving Repr, DecidableEq

/-- Row of the `diseases` table. -/
structure Disease where
  id : Nat
  crop_id : Option Nat
  name_en : String
  name_hi : String
  description_en : String
  description_hi : String
  treatment_en : String
  treatment_hi : String
  prevention_en : String
  prevention_hi : String
  deriving Repr, DecidableEq

/-- Row of the `symptom_disease_mapping` table: how strongly a symptom
supports a disease hypothesis. -/
structure SymptomDiseaseMapping where
  symptom_id : Nat
  disease_id : Nat
  probability_weight : ℚ
  is_primary_indicator : Bool
  deriving Repr, DecidableEq

/-- Row of the `diagnostic_questions` table. -/
structure DiagnosticQuestion where
  question_code : String
  question_en : String
  question_hi : String
  trigger_symptoms : List String
  answer_type : String
  options : List String
  priority : Int
  deriving Repr, DecidableEq

/-- The read-only knowledge base: the four reference tables. -/
structure KnowledgeBase where
  symptoms : List Symptom
  diseases : List Disease
  mappings : List SymptomDiseaseMapping
  questions : List DiagnosticQuestion
  deriving Repr

/-- One entry of a conversation's history. -/
structure ChatMessage where
  role : String
  content : String
  timestamp : String
  deriving Repr, DecidableEq

/-- The mutable session entity (row of `conversations`). -/
structure Conversation where
  session_id : String
  language : String
  conversation_history : List ChatMessage
  detected_symptoms : List String
  current_probabilities : List (Nat × ℚ)
  status : String
  deriving Repr

/-! ### Belief aggregation (`calculateDiseaseProbabilities`) -/

/-- One step of the accumulation loop: fold one weight-table row into the
association list of disease scores.  Mirrors
`diseaseProbabilities[diseaseId] += weight * 0.5` with key creation on first
touch (JavaScript object keys keep insertion order). -/
def addWeight (acc : List (Nat × ℚ)) (m : SymptomDiseaseMapping) :
    List (Nat × ℚ) :=
  if acc.any (fun p => p.1 = m.disease_id) then
    acc.map (fun p =>
      if p.1 = m.disease_id then (p.1, p.2 + m.probability_weight * (1 / 2))
      else p)
  else
    acc ++ [(m.disease_id, m.probability_weight * (1 / 2))]

/-- Core of `calculateDiseaseProbabilities`, parametrized by the results of
the two knowledge-base reads (the `symptoms` read filtered by
`symptom_code in detectedSymptoms`, and the `symptom_disease_mapping` read
filtered by the matched symptom ids). -/
def calcCore (symptoms : List Symptom) (mappings : List SymptomDiseaseMapping)
    (detectedSymptoms : List String) : List (Nat × ℚ) :=
  if detectedSymptoms.isEmpty then []
  else
    let matched := symptoms.filter (fun s => s.symptom_code ∈ detectedSymptoms)
    if matched.isEmpty then []
    else
      let symptomIds := matched.map (fun s => s.id)
      let rows := mappings.filter (fun m => m.symptom_id ∈ symptomIds)
      (rows.foldl addWeight []).map (fun p => (p.1, min p.2 1))

/-- Belief aggregation: recompute the disease-score mapping from the whole
evidence set and the knowledge base (lines 994-1042 of the source). -/
def calculateDiseaseProbabilities (kb : KnowledgeBase)
    (detectedSymptoms : List String) : List (Nat × ℚ) :=
  calcCore kb.symptoms kb.mappings detectedSymptoms

/-- Error raised by a failing knowledge-base read collaborator. -/
inductive KBError where
  | unavailable
  deriving Repr, DecidableEq

/-- Variant of `calculateDiseaseProbabilities` that makes the two
knowledge-base reads fallible, mirroring the source's
`if (symptomsError) ... return \x7b\x7d` / `if (mappingsError) ... return \x7b\x7d`
branches: a failed read is logged and the function returns the empty mapping
as a successful result. -/
def calcProbsWithReads (symRead : Except KBError (List Symptom))
    (mapRead : Except KBError (List SymptomDiseaseMapping))
    (detectedSymptoms : List String) :
    Except KBError (List (Nat × ℚ)) :=
  if detectedSymptoms.isEmpty then .ok []
  else
    match symRead with
    | .error _ => .ok []
    | .ok matched =>
      if matched.isEmpty then .ok []
      else
        match mapRead with
        | .error _ => .ok []
        | .ok rows => .ok ((rows.foldl addWeight []).map (fun p => (p.1, min p.2 1)))

/-! ### Evidence accumulation (chat-orchestrator turn loop) -/

/-- The orchestrator's loop over newly matched symptom codes:
`if (!detectedSymptoms.includes(code)) detectedSymptoms.push(code)`
(lines 806-810 of the source). -/
def accumulateSymptoms (detected : List String) (found : List String) :
    List String :=
  found.foldl (fun acc code => if code ∈ acc then acc else acc ++ [code])
    detected

/-! ### Symptom extraction (`detectSymptoms`) -/

/-- Scanner realising `split(/[\s,]+/)`: cut at every whitespace or comma
character (a run of separators yields empty interior fragments, which every
caller filters away by a length bound, matching the run-collapsing regex). -/
def splitWsCommaAux : List Char → List Char → List (List Char)
  | [], acc => [acc.reverse]
  | c :: rest, acc =>
    if c.isWhitespace ∨ c = ',' then acc.reverse :: splitWsCommaAux rest []
    else splitWsCommaAux rest (c :: acc)

/-- Split a string on whitespace and commas. -/
def splitWsComma (s : String) : List String :=
  (splitWsCommaAux s.data [] ).map String.mk

/-- Whitespace trimming at both ends, modelling `String.prototype.trim`. -/
def strTrim (s : String) : String :=
  String.mk
    (((s.data.dropWhile Char.isWhitespace).reverse.dropWhile
      Char.isWhitespace).reverse)

/-- Cue tokens of a localized description: split on whitespace and commas,
keep tokens longer than 3 characters (`extractKeywords` in the source). -/
def extractKeywords (description : String) : List String :=
  (splitWsComma description).filter (fun w => w.length > 3)

/-- Character-wise lowercasing, modelling `String.prototype.toLowerCase`. -/
def strLower (s : String) : String :=
  String.mk (s.data.map Char.toLower)

/-- Substring containment, modelling `String.prototype.includes`. -/
def strIncludes (hay needle : String) : Bool :=
  decide (needle.data <:+: hay.data)

/-- Candidate symptom set of `detectSymptoms`: the full catalog, narrowed to
the symptoms linked to the crop's diseases when a `cropId` is supplied and
both intermediate reads are non-empty; the full catalog otherwise (the two
`length > 0` guards in lines 949-968 of the source). -/
def candidateSymptoms (kb : KnowledgeBase) (cropId : Option Nat) :
    List Symptom :=
  match cropId with
  | none => kb.symptoms
  | some cid =>
    let cropDiseases := kb.diseases.filter (fun d => d.crop_id = some cid)
    if cropDiseases.isEmpty then kb.symptoms
    else
      let diseaseIds := cropDiseases.map (fun d => d.id)
      let relevantRows := kb.mappings.filter
        (fun m => m.disease_id ∈ diseaseIds)
      if relevantRows.isEmpty then kb.symptoms
      else
        let symptomIds := (relevantRows.map (fun m => m.symptom_id)).dedup
        kb.symptoms.filter (fun s => s.id ∈ symptomIds)

/-- Symptom extraction: a candidate symptom is detected when the lowercased
message contains at least one of its cue tokens as a substring. -/
def detectSymptoms (kb : KnowledgeBase) (message : String) (language : String)
    (cropId : Option Nat) : List Symptom :=
  let messageLower := strLower message
  (candidateSymptoms kb cropId).filter (fun s =>
    let description := if language = "hi" then s.description_hi
      else s.description_en
    (extractKeywords description).any
      (fun keyword => strIncludes messageLower (strLower keyword)))

/-! ### Treatment-text splitting (advisory action steps)

The source splits the localized treatment text with
`treatment.split(/\d+\./)`: the separator is a maximal run of one or more
digits followed by a literal dot.  Because a backtracked shorter digit run is
always followed by another digit (never by a dot), a regex match occurs
exactly at a maximal digit run immediately followed by a dot, so the split is
realised by the single-pass scanner below (`dbuf` holds the pending digit
run, reversed; `acc` holds the current fragment, reversed). -/

/-- Scanner realising `split(/\d+\./)` on a list of characters. -/
def splitNumDotAux : List Char → List Char → List Char → List (List Char)
  | [], dbuf, acc => [(dbuf ++ acc).reverse]
  | c :: rest, dbuf, acc =>
    if c.isDigit then splitNumDotAux rest (c :: dbuf) acc
    else if c = '.' ∧ dbuf ≠ [] then
      acc.reverse :: splitNumDotAux rest [] []
    else splitNumDotAux rest [] (c :: (dbuf ++ acc))

/-- Split a string on every `<digits>.` separator. -/
def splitNumDot (s : String) : List String :=
  (splitNumDotAux s.data [] []).map String.mk

/-- Action steps of an advisory: split the treatment text on `<digits>.`,
drop fragments that are empty after trimming, trim and number sequentially
from 1 (lines 537-542 of the source). -/
def actionStepsOf (treatment : String) : List (Nat × String) :=
  let treatmentSteps := (splitNumDot treatment).filter
    (fun s => 0 < (strTrim s).length)
  treatmentSteps.enum.map (fun p => (p.1 + 1, strTrim p.2))

/-! ### Question selection (`getNextQuestion`) -/

/-- The record the question selector returns to the orchestrator. -/
structure NextQuestion where
  question : String
  code : String
  answerType : String
  options : List String
  deriving Repr, DecidableEq

/-- Localized text of a diagnostic question. -/
def questionTextOf (language : String) (q : DiagnosticQuestion) : String :=
  if language = "hi" then q.question_hi else q.question_en

/-- Build the returned record from a qualifying question. -/
def toNextQuestion (language : String) (q : DiagnosticQuestion) :
    NextQuestion :=
  { question := questionTextOf language q
    code := q.question_code
    answerType := q.answer_type
    options := q.options }

/-- Priority-descending order used by the `diagnostic_questions` read
(`order by priority, ascending: false`). -/
def byPriorityDesc (a b : DiagnosticQuestion) : Prop :=
  b.priority ≤ a.priority

instance : DecidableRel byPriorityDesc :=
  fun a b => inferInstanceAs (Decidable (b.priority ≤ a.priority))

instance : IsTotal DiagnosticQuestion byPriorityDesc :=
  ⟨fun a b => le_total b.priority a.priority⟩

instance : IsTrans DiagnosticQuestion byPriorityDesc :=
  ⟨fun _ _ _ hab hbc => le_trans hbc hab⟩

/-- The selector's scan over the ordered question list (the `for` loop of
lines 1059-1079 of the source). -/
def findQuestionLoop (detectedSymptoms : List String) (asked : List String)
    (language : String) : List DiagnosticQuestion → Option NextQuestion
  | [] => none
  | q :: rest =>
    let hasMatchingSymptom := q.trigger_symptoms.any
      (fun ts => ts ∈ detectedSymptoms)
    let questionText := questionTextOf language q
    let alreadyAsked := asked.any (fun a => strIncludes a questionText)
    if hasMatchingSymptom && !alreadyAsked then
      some (toNextQuestion language q)
    else findQuestionLoop detectedSymptoms asked language rest

/-- Question selector: derive the already-asked texts from the history,
order the catalog by priority descending, and scan for the first qualifying
question. -/
def getNextQuestion (questions : List DiagnosticQuestion)
    (detectedSymptoms : List String)
    (conversationHistory : List ChatMessage) (language : String) :
    Option NextQuestion :=
  let askedQuestions := (conversationHistory.filter
    (fun m => m.role = "assistant")).map (fun m => m.content)
  let ordered := questions.insertionSort byPriorityDesc
  findQuestionLoop detectedSymptoms askedQuestions language ordered

/-- Declarative qualification predicate: the question's trigger symptoms
intersect the evidence set and its localized text is not contained in any
prior assistant message. -/
def qualifiesQ (detectedSymptoms : List String) (asked : List String)
    (language : String) (q : DiagnosticQuestion) : Bool :=
  (q.trigger_symptoms.any (fun ts => ts ∈ detectedSymptoms)) &&
    !(asked.any (fun a => strIncludes a (questionTextOf language q)))

/-! ### Advisory composition (`generate-advisory`) -/

/-- Failures of advisory composition: empty probability mapping (the 400
response of lines 498-511), or top disease missing from the catalog (the
`throw` of line 526). -/
inductive ComposeError where
  | noEvidence
  | diseaseNotFound
  deriving Repr, DecidableEq

/-- The advisory record assembled by the composer (fields the engine
computes; the long templated recommendation string is omitted). -/
structure Advisory where
  disease_id : Nat
  confidence_score : ℚ
  confidenceLevel : String
  action_steps : List (Nat × String)
  escalated : Bool
  language : String
  deriving Repr, DecidableEq

/-- Score-descending order modelling the comparator `(a, b) => b[1] - a[1]`. -/
def scoreDesc (a b : Nat × ℚ) : Prop :=
  b.2 ≤ a.2

instance : DecidableRel scoreDesc :=
  fun a b => inferInstanceAs (Decidable (b.2 ≤ a.2))

instance : IsTotal (Nat × ℚ) scoreDesc :=
  ⟨fun a b => le_total b.2 a.2⟩

instance : IsTrans (Nat × ℚ) scoreDesc :=
  ⟨fun _ _ _ hab hbc => le_trans hbc hab⟩

/-- Lookup of the `diseases` table by id (`.eq('id', topDiseaseId)`). -/
def findDisease (diseases : List Disease) (i : Nat) : Option Disease :=
  diseases.find? (fun d => d.id = i)

/-- Confidence banding of lines 547-562: at least 0.8 is High, at least 0.6
is Moderate, below 0.6 is Low (localized). -/
def confidenceLevelText (language : String) (confidenceScore : ℚ) : String :=
  if 4 / 5 ≤ confidenceScore then
    if language = "hi" then "उच्च" else "High"
  else if 3 / 5 ≤ confidenceScore then
    if language = "hi" then "मध्यम" else "Moderate"
  else
    if language = "hi" then "कम" else "Low"

/-- Advisory composer (lines 496-612 of the source): reject an empty
probability mapping, sort the entries by score descending, take the top
entry, look up its disease, set the escalation flag from the 0.6 cutoff,
assemble the advisory and transition the conversation's status. -/
def composeAdvisory (diseases : List Disease) (conversation : Conversation)
    (language : String) : Except ComposeError (Advisory × Conversation) :=
  let probabilities := conversation.current_probabilities
  if probabilities.isEmpty then .error .noEvidence
  else
    match probabilities.insertionSort scoreDesc with
    | [] => .error .noEvidence
    | (topDiseaseId, confidence) :: _ =>
      match findDisease diseases topDiseaseId with
      | none => .error .diseaseNotFound
      | some disease =>
        let confidenceScore := confidence
        let shouldEscalate : Bool := decide (confidenceScore < 3 / 5)
        let treatment := if language = "hi" then disease.treatment_hi
          else disease.treatment_en
        let advisory : Advisory :=
          { disease_id := topDiseaseId
            confidence_score := confidenceScore
            confidenceLevel := confidenceLevelText language confidenceScore
            action_steps := actionStepsOf treatment
            escalated := shouldEscalate
            language := language }
        .ok (advisory,
          { conversation with
            status := if shouldEscalate then "escalated" else "completed" })

/-! ### Concrete sample data

A small knowledge base with the Wheat Rust disease and its two primary
indicator symptoms, used to instantiate the theorems below on concrete
inputs. -/

/-- Wheat Rust: the sample disease record. -/
def wheatRust : Disease :=
  { id := 10
    crop_id := some 1
    name_en := "Wheat Rust"
    name_hi := "गेहूं का रतुआ"
    description_en := "A fungal disease of wheat."
    description_hi := "गेहूं का एक कवक रोग।"
    treatment_en := "1. Apply fungicide 2. Remove infected leaves 3. Monitor weekly"
    treatment_hi := "1. कवकनाशी लगाएं"
    prevention_en := "Use resistant varieties."
    prevention_hi := "प्रतिरोधी किस्में।" }

/-- Sample knowledge base: two symptoms, one disease, two weight rows. -/
def kbWheat : KnowledgeBase :=
  { symptoms :=
      [{ id := 1, symptom_code := "orange_pustules",
         description_en := "Orange pustules visible on leaves",
         description_hi := "पत्तियों पर नारंगी दाने" },
       { id := 2, symptom_code := "rust_spots",
         description_en := "Rust colored spots on the stem",
         description_hi := "तने पर जंग जैसे धब्बे" }]
    diseases := [wheatRust]
    mappings :=
      [{ symptom_id := 1, disease_id := 10, probability_weight := 9 / 10,
         is_primary_indicator := true },
       { symptom_id := 2, disease_id := 10, probability_weight := 4 / 5,
         is_primary_indicator := true }]
    questions := [] }

/-- Sample conversation whose evidence set already scored Wheat Rust. -/
def convWheat : Conversation :=
  { session_id := "s1"
    language := "en"
    conversation_history := []
    detected_symptoms := ["orange_pustules", "rust_spots"]
    current_probabilities := [(10, 17 / 20)]
    status := "active" }

/-- A freshly created conversation: no evidence, empty probabilities. -/
def convFresh : Conversation :=
  { session_id := "s2"
    language := "en"
    conversation_history := []
    detected_symptoms := []
    current_probabilities := []
    status := "active" }

/-- The advisory the composer assembles for `convWheat` (fields written as
the unevaluated terms the composer builds, so the equation is definitional). -/
def advWheat : Advisory :=
  { disease_id := 10
    confidence_score := 17 / 20
    confidenceLevel := confidenceLevelText "en" (17 / 20)
    action_steps := actionStepsOf
      (if ("en" : String) = "hi" then wheatRust.treatment_hi
       else wheatRust.treatment_en)
    escalated := decide ((17 : ℚ) / 20 < 3 / 5)
    language := "en" }

/-- The conversation state after composing the advisory for `convWheat`. -/
def convWheatDone : Conversation :=
  { convWheat with
    status := if decide ((17 : ℚ) / 20 < 3 / 5) then "escalated"
      else "completed" }

/-- A sample diagnostic question triggered by `rust_spots`. -/
def qOrange : DiagnosticQuestion :=
  { question_code := "q_orange"
    question_en := "Do you see orange pustules on the leaves?"
    question_hi := "क्या पत्तियों पर नारंगी दाने दिखते हैं?"
    trigger_symptoms := ["rust_spots"]
    answer_type := "yes_no"
    options := []
    priority := 5 }

/-- A prior assistant message that does not contain `qOrange`'s text. -/
def msgHello : ChatMessage :=
  { role := "assistant", content := "Hello farmer", timestamp := "t0" }

/-- A sample symptom used by the read-failure witness. -/
def symWilting : Symptom :=
  { id := 1
    symptom_code := "wilting_plant"
    description_en := "Wilting plant"
    description_hi := "मुरझाया पौधा" }

/-- Per-disease contribution of a list of weight rows: the dampened sum of
the weights of the rows supporting disease `d`. -/
def rowSum (d : Nat) (rows : List SymptomDiseaseMapping) : ℚ :=
  ((rows.filter (fun m => m.disease_id = d)).map
    (fun m => m.probability_weight * (1 / 2))).sum

/-- Reading a disease's score off the association list (record access
`probabilities[diseaseId]`). -/
def lookupScore (d : Nat) : List (Nat × ℚ) → Option ℚ
  | [] => none
  | p :: rest => if p.1 = d then some p.2 else lookupScore d rest

/-! ### Helper lemmas: association-list lookup through the accumulation -/

/-- Lookup after updating every entry whose key is `e`. -/
theorem lookupScore_map_single_update (d e : Nat) (w : ℚ)
    (acc : List (Nat × ℚ)) :
    lookupScore d (acc.map (fun p =>
      if p.1 = e then (p.1, p.2 + w) else p)) =
      if d = e then (lookupScore d acc).map (fun v => v + w)
      else lookupScore d acc := by
  induction acc with
  | nil => by_cases h : d = e <;> simp [lookupScore, h]
  | cons p rest ih =>
    simp only [List.map_cons]
    by_cases hpe : p.1 = e
    · rw [if_pos hpe]
      by_cases hpd : p.1 = d
      · have hde : d = e := by rw [← hpd, hpe]
        simp [lookupScore, hpd, hde]
      · simp [lookupScore, hpd, ih]
    · rw [if_neg hpe]
      by_cases hpd : p.1 = d
      · have hde : ¬ d = e := by rw [← hpd]; exact hpe
        simp [lookupScore, hpd, hde]
      · simp [lookupScore, hpd, ih]

/-- A key is absent from an association list iff no entry carries it. -/
theorem lookupScore_eq_none_iff (d : Nat) (acc : List (Nat × ℚ)) :
    lookupScore d acc = none ↔ acc.any (fun p => p.1 = d) = false := by
  induction acc with
  | nil => simp [lookupScore]
  | cons p rest ih =>
    by_cases h : p.1 = d <;> simp [lookupScore, h, ih]

/-- Appending a fresh entry for an absent key makes it found. -/
theorem lookupScore_append_fresh (d : Nat) (w : ℚ) (acc : List (Nat × ℚ))
    (h : lookupScore d acc = none) :
    lookupScore d (acc ++ [(d, w)]) = some w := by
  induction acc with
  | nil => simp [lookupScore]
  | cons p rest ih =>
    by_cases hpd : p.1 = d
    · simp [lookupScore, hpd] at h
    · simp only [lookupScore, List.cons_append, if_neg hpd] at h ⊢
      exact ih h

/-- Appending an entry for a different key does not change a lookup. -/
theorem lookupScore_append_other (d e : Nat) (w : ℚ) (acc : List (Nat × ℚ))
    (hne : ¬ e = d) :
    lookupScore d (acc ++ [(e, w)]) = lookupScore d acc := by
  induction acc with
  | nil => simp [lookupScore, hne]
  | cons p rest ih =>
    by_cases hpd : p.1 = d <;> simp [lookupScore, hpd, ih]

/-- One accumulation step, seen through lookup. -/
theorem lookupScore_addWeight (d : Nat) (acc : List (Nat × ℚ))
    (m : SymptomDiseaseMapping) :
    lookupScore d (addWeight acc m) =
      if m.disease_id = d then
        some ((lookupScore d acc).getD 0 +
          m.probability_weight * (1 / 2))
      else lookupScore d acc := by
  unfold addWeight
  by_cases hany : acc.any (fun p => p.1 = m.disease_id) = true
  · rw [if_pos hany, lookupScore_map_single_update]
    by_cases hmd : m.disease_id = d
    · subst hmd
      have hsome : lookupScore m.disease_id acc ≠ none := by
        intro hno
        rw [lookupScore_eq_none_iff] at hno
        rw [hno] at hany
        exact Bool.false_ne_true hany
      obtain ⟨v, hv⟩ := Option.ne_none_iff_exists'.mp hsome
      simp [hv]
    · have hdm : ¬ d = m.disease_id := fun h => hmd h.symm
      simp [hmd, hdm]
  · rw [if_neg hany]
    by_cases hmd : m.disease_id = d
    · subst hmd
      have hnone : lookupScore m.disease_id acc = none := by
        rw [lookupScore_eq_none_iff]
        exact Bool.eq_false_iff.mpr hany
      rw [lookupScore_append_fresh _ _ _ hnone]
      simp [hnone]
    · simp [hmd, lookupScore_append_other _ _ _ _ hmd]

/-- Unfolding `rowSum` over a cons cell. -/
theorem rowSum_cons (d : Nat) (m : SymptomDiseaseMapping)
    (rest : List SymptomDiseaseMapping) :
    rowSum d (m :: rest) =
      (if m.disease_id = d then m.probability_weight * (1 / 2) else 0) +
        rowSum d rest := by
  by_cases h : m.disease_id = d <;> simp [rowSum, List.filter_cons, h]

/-- Closed form of the accumulation loop: the final score of disease `d` is
its score in the accumulator plus the dampened sum of the weights of the
rows supporting `d`; a disease absent from both stays absent. -/
theorem lookupScore_foldl_addWeight (rows : List SymptomDiseaseMapping)
    (acc : List (Nat × ℚ)) (d : Nat) :
    lookupScore d (rows.foldl addWeight acc) =
      match lookupScore d acc with
      | some v => some (v + rowSum d rows)
      | none =>
        if rows.any (fun m => m.disease_id = d) then some (rowSum d rows)
        else none := by
  induction rows generalizing acc with
  | nil =>
    cases h : lookupScore d acc <;> simp [h, rowSum]
  | cons m rest ih =>
    rw [List.foldl_cons, ih (addWeight acc m), lookupScore_addWeight]
    by_cases hmd : m.disease_id = d
    · cases h : lookupScore d acc <;>
        simp [hmd, h, rowSum_cons, add_assoc]
    · cases h : lookupScore d acc <;>
        simp [hmd, h, rowSum_cons]

/-- Lookup commutes with the final clamping pass. -/
theorem lookupScore_map_clamp (d : Nat) (l : List (Nat × ℚ)) :
    lookupScore d (l.map (fun p => (p.1, min p.2 1))) =
      (lookupScore d l).map (fun v => min v 1) := by
  induction l with
  | nil => simp [lookupScore]
  | cons p rest ih =>
    by_cases h : p.1 = d <;> simp [lookupScore, h, ih]

/-- A permutation preserves `List.any`. -/
theorem perm_any_eq {α : Type} {l l2 : List α} (p : α → Bool)
    (h : l.Perm l2) : l.any p = l2.any p := by
  rw [Bool.eq_iff_iff]
  simp only [List.any_eq_true]
  exact ⟨fun ⟨x, hx, hp⟩ => ⟨x, h.mem_iff.mp hx, hp⟩,
    fun ⟨x, hx, hp⟩ => ⟨x, h.mem_iff.mpr hx, hp⟩⟩

/-- Closed form of the aggregation: a disease's final score is the clamped
dampened weight sum over the relevant rows, and a disease appears in the
mapping exactly when a relevant row supports it. -/
theorem lookupScore_calcCore (symptoms : List Symptom)
    (mappings : List SymptomDiseaseMapping) (detected : List String)
    (d : Nat) :
    lookupScore d (calcCore symptoms mappings detected) =
      if detected.isEmpty then none
      else if (symptoms.filter
          (fun s => s.symptom_code ∈ detected)).isEmpty then none
      else if (mappings.filter (fun m => m.symptom_id ∈
            (symptoms.filter (fun s => s.symptom_code ∈ detected)).map
              (fun s => s.id))).any (fun m => m.disease_id = d) then
        some (min (rowSum d (mappings.filter (fun m => m.symptom_id ∈
          (symptoms.filter (fun s => s.symptom_code ∈ detected)).map
            (fun s => s.id)))) 1)
      else none := by
  unfold calcCore
  by_cases h1 : detected.isEmpty
  · simp [h1, lookupScore]
  · simp only [h1, Bool.false_eq_true, if_false]
    by_cases h2 : (symptoms.filter
        (fun s => s.symptom_code ∈ detected)).isEmpty
    · simp [h2, lookupScore]
    · simp only [h2, Bool.false_eq_true, if_false]
      rw [lookupScore_map_clamp, lookupScore_foldl_addWeight]
      have hnil : lookupScore d ([] : List (Nat × ℚ)) = none := rfl
      rw [hnil]
      by_cases h3 : (mappings.filter (fun m => m.symptom_id ∈
          (symptoms.filter (fun s => s.symptom_code ∈ detected)).map
            (fun s => s.id))).any (fun m => m.disease_id = d) <;>
        simp [h3]

/-- C4: the probability aggregation is a deterministic function of the
evidence set alone — two evidence lists with the same members and any
reordering of the weight rows give identical disease-score mappings, and an
empty evidence set gives the empty mapping. -/
theorem aggregation_deterministic (kb : KnowledgeBase)
    (mappings2 : List SymptomDiseaseMapping) (l1 l2 : List String)
    (hmem : ∀ c, c ∈ l1 ↔ c ∈ l2)
    (hperm : kb.mappings.Perm mappings2) :
    (∀ d, lookupScore d (calculateDiseaseProbabilities kb l1) =
      lookupScore d (calculateDiseaseProbabilities
        { kb with mappings := mappings2 } l2)) ∧
    calculateDiseaseProbabilities kb [] = [] := by
  refine ⟨fun d => ?_, rfl⟩
  show lookupScore d (calcCore kb.symptoms kb.mappings l1) =
    lookupScore d (calcCore kb.symptoms mappings2 l2)
  rw [lookupScore_calcCore, lookupScore_calcCore]
  have hempty : l1.isEmpty = l2.isEmpty := by
    cases l1 with
    | nil =>
      cases l2 with
      | nil => rfl
      | cons b bs =>
        exact absurd ((hmem b).mpr (List.mem_cons_self b bs))
          (List.not_mem_nil b)
    | cons a as =>
      cases l2 with
      | nil =>
        exact absurd ((hmem a).mp (List.mem_cons_self a as))
          (List.not_mem_nil a)
      | cons b bs => rfl
  have hfilter : kb.symptoms.filter (fun s => s.symptom_code ∈ l1) =
      kb.symptoms.filter (fun s => s.symptom_code ∈ l2) :=
    List.filter_congr (fun s _ => decide_eq_decide.mpr (hmem s.symptom_code))
  rw [hempty, hfilter]
  have hrows : (kb.mappings.filter (fun m => m.symptom_id ∈
      (kb.symptoms.filter (fun s => s.symptom_code ∈ l2)).map
        (fun s => s.id))).Perm
      (mappings2.filter (fun m => m.symptom_id ∈
      (kb.symptoms.filter (fun s => s.symptom_code ∈ l2)).map
        (fun s => s.id))) := hperm.filter _
  have hany := perm_any_eq (fun m => decide (m.disease_id = d)) hrows
  have hsum : rowSum d (kb.mappings.filter (fun m => m.symptom_id ∈
      (kb.symptoms.filter (fun s => s.symptom_code ∈ l2)).map
        (fun s => s.id))) =
      rowSum d (mappings2.filter (fun m => m.symptom_id ∈
      (kb.symptoms.filter (fun s => s.symptom_code ∈ l2)).map
        (fun s => s.id))) := by
    unfold rowSum
    exact List.Perm.sum_eq ((hrows.filter _).map _)
  rw [hany, hsum]

/-- Witness for C4 at concrete inputs: swapping the two weight rows of the
sample knowledge base leaves the Wheat Rust score unchanged. -/
theorem aggregation_deterministic_witness :
    lookupScore 10 (calculateDiseaseProbabilities kbWheat
      ["orange_pustules", "rust_spots"]) =
      lookupScore 10 (calculateDiseaseProbabilities
        { kbWheat with mappings :=
          [{ symptom_id := 2, disease_id := 10, probability_weight := 4 / 5,
             is_primary_indicator := true },
           { symptom_id := 1, disease_id := 10, probability_weight := 9 / 10,
             is_primary_indicator := true }] }
        ["orange_pustules", "rust_spots"]) ∧
    calculateDiseaseProbabilities kbWheat [] = [] :=
  ⟨(aggregation_deterministic kbWheat _ _ _ (fun _ => Iff.rfl)
      (List.Perm.swap _ _ _)).1 10,
   (aggregation_deterministic kbWheat
      [{ symptom_id := 2, disease_id := 10, probability_weight := 4 / 5,
         is_primary_indicator := true },
       { symptom_id := 1, disease_id := 10, probability_weight := 9 / 10,
         is_primary_indicator := true }]
      ["orange_pustules", "rust_spots"] ["orange_pustules", "rust_spots"]
      (fun _ => Iff.rfl) (List.Perm.swap _ _ _)).2⟩

/-! ### C5: monotone evidence accumulation -/

/-- Unfolding the accumulation loop over a cons cell. -/
theorem accumulateSymptoms_cons (detected : List String) (c : String)
    (rest : List String) :
    accumulateSymptoms detected (c :: rest) =
      accumulateSymptoms (if c ∈ detected then detected else detected ++ [c])
        rest := rfl

/-- C5: the evidence set only grows across a turn, folding in an
already-present code is a no-op, and the accumulated list stays
duplicate-free. -/
theorem detected_symptoms_monotone (detected found : List String) :
    (∀ x ∈ detected, x ∈ accumulateSymptoms detected found) ∧
    (∀ x, x ∈ detected → accumulateSymptoms detected [x] = detected) ∧
    (detected.Nodup → (accumulateSymptoms detected found).Nodup) := by
  refine ⟨?_, ?_, ?_⟩
  · intro x hx
    induction found generalizing detected with
    | nil => exact hx
    | cons c rest ih =>
      rw [accumulateSymptoms_cons]
      by_cases h : c ∈ detected
      · rw [if_pos h]
        exact ih _ hx
      · rw [if_neg h]
        exact ih _ (List.mem_append_left _ hx)
  · intro x hx
    show (if x ∈ detected then detected else detected ++ [x]) = detected
    rw [if_pos hx]
  · intro hnd
    induction found generalizing detected with
    | nil => exact hnd
    | cons c rest ih =>
      rw [accumulateSymptoms_cons]
      by_cases h : c ∈ detected
      · rw [if_pos h]
        exact ih _ hnd
      · rw [if_neg h]
        refine ih _ ?_
        rw [List.nodup_append]
        exact ⟨hnd, List.nodup_singleton c,
          fun a ha hb => h ((List.mem_singleton.mp hb) ▸ ha)⟩

/-- Witness for C5 at concrete inputs. -/
theorem detected_symptoms_monotone_witness :
    ("orange_pustules" ∈
      accumulateSymptoms ["orange_pustules"] ["rust_spots", "orange_pustules"]) ∧
    accumulateSymptoms ["orange_pustules"] ["orange_pustules"] =
      ["orange_pustules"] ∧
    (accumulateSymptoms ["orange_pustules"]
      ["rust_spots", "orange_pustules"]).Nodup :=
  ⟨(detected_symptoms_monotone ["orange_pustules"]
      ["rust_spots", "orange_pustules"]).1 "orange_pustules" (by simp),
   (detected_symptoms_monotone ["orange_pustules"] []).2.1 "orange_pustules"
      (by simp),
   (detected_symptoms_monotone ["orange_pustules"]
      ["rust_spots", "orange_pustules"]).2.2 (by simp)⟩

/-! ### C6: score bounds -/

/-- Every accumulated value stays non-negative when the accumulator's values
and all row weights are non-negative. -/
theorem foldl_addWeight_nonneg (rows : List SymptomDiseaseMapping)
    (acc : List (Nat × ℚ)) (hacc : ∀ q ∈ acc, 0 ≤ q.2)
    (hrows : ∀ m ∈ rows, 0 ≤ m.probability_weight) :
    ∀ q ∈ rows.foldl addWeight acc, 0 ≤ q.2 := by
  induction rows generalizing acc with
  | nil => exact hacc
  | cons m rest ih =>
    rw [List.foldl_cons]
    refine ih (addWeight acc m) ?_
      (fun x hx => hrows x (List.mem_cons_of_mem _ hx))
    intro q hq
    have hw : 0 ≤ m.probability_weight * (1 / 2) :=
      mul_nonneg (hrows m (List.mem_cons_self _ _)) (by norm_num)
    unfold addWeight at hq
    by_cases hany : acc.any (fun p => p.1 = m.disease_id) = true
    · rw [if_pos hany] at hq
      obtain ⟨p, hp, rfl⟩ := List.mem_map.mp hq
      by_cases hpd : p.1 = m.disease_id
      · rw [if_pos hpd]
        exact add_nonneg (hacc p hp) hw
      · rw [if_neg hpd]
        exact hacc p hp
    · rw [if_neg hany] at hq
      rcases List.mem_append.mp hq with h1 | h2
      · exact hacc q h1
      · rw [List.mem_singleton] at h2
        subst h2
        exact hw

/-- C6: with weights in the unit interval, every aggregated score lies in
the closed interval from 0 to 1 — sums are clamped above at 1 and no
contribution is negative. -/
theorem probabilities_bounded (kb : KnowledgeBase) (ev : List String)
    (hw : ∀ m ∈ kb.mappings,
      0 ≤ m.probability_weight ∧ m.probability_weight ≤ 1) :
    ∀ p ∈ calculateDiseaseProbabilities kb ev, 0 ≤ p.2 ∧ p.2 ≤ 1 := by
  intro p hp
  have hp' : p ∈ calcCore kb.symptoms kb.mappings ev := hp
  unfold calcCore at hp'
  split at hp'
  · simp at hp'
  · dsimp only at hp'
    split at hp'
    · simp at hp'
    · obtain ⟨q, hq, rfl⟩ := List.mem_map.mp hp'
      constructor
      · have h0 : (0 : ℚ) ≤ q.2 :=
          foldl_addWeight_nonneg _ [] (by simp)
            (fun m hm => (hw m (List.mem_filter.mp hm).1).1) q hq
        exact le_min h0 zero_le_one
      · exact min_le_right _ _

/-- Witness for C6 at concrete inputs. -/
theorem probabilities_bounded_witness :
    (0 : ℚ) ≤ min ((9 : ℚ) / 10 * (1 / 2)) 1 ∧
      min ((9 : ℚ) / 10 * (1 / 2)) 1 ≤ 1 :=
  probabilities_bounded kbWheat ["orange_pustules"]
    (by intro m hm; fin_cases hm <;> norm_num)
    (10, min ((9 : ℚ) / 10 * (1 / 2)) 1)
    (List.mem_singleton.mpr rfl)

/-! ### C7: treatment-text splitting -/

/-- Numbering the entries of an enumeration yields consecutive numbers. -/
theorem enumFrom_step_numbers (n : Nat) (l : List String) :
    ((List.enumFrom n l).map (fun p => (p.1 + 1, strTrim p.2))).map
      Prod.fst = List.range' (n + 1) l.length := by
  induction l generalizing n with
  | nil => rfl
  | cons s rest ih =>
    simp only [List.enumFrom, List.map_cons, List.length_cons,
      List.range'_succ]
    exact congrArg _ (ih (n + 1))

/-- C7: the sample treatment text splits into the three expected steps, and
in general the surviving fragments are numbered sequentially from 1. -/
theorem treatment_action_steps :
    actionStepsOf
      "1. Apply fungicide 2. Remove infected leaves 3. Monitor weekly" =
      [(1, "Apply fungicide"), (2, "Remove infected leaves"),
       (3, "Monitor weekly")] ∧
    ∀ treatment : String, (actionStepsOf treatment).map Prod.fst =
      List.range' 1 (actionStepsOf treatment).length := by
  constructor
  · rfl
  · intro treatment
    unfold actionStepsOf
    dsimp only
    rw [List.enum]
    rw [enumFrom_step_numbers]
    congr 1
    simp

/-! ### C8: question selection -/

/-- The selector's loop returns the first question satisfying the
declarative qualification predicate. -/
theorem findQuestionLoop_eq_find (detectedSymptoms asked : List String)
    (language : String) (qs : List DiagnosticQuestion) :
    findQuestionLoop detectedSymptoms asked language qs =
      (qs.find? (qualifiesQ detectedSymptoms asked language)).map
        (toNextQuestion language) := by
  induction qs with
  | nil => rfl
  | cons q rest ih =>
    unfold findQuestionLoop
    dsimp only
    rw [List.find?_cons]
    split
    · next hcond =>
        have hq : qualifiesQ detectedSymptoms asked language q = true := hcond
        rw [hq]
        rfl
    · next hcond =>
        have hq : qualifiesQ detectedSymptoms asked language q = false := by
          rw [← Bool.not_eq_true]
          exact hcond
        rw [hq]
        exact ih

/-- C8: the selector returns the first qualifying question of the catalog in
priority-descending order (none when no question qualifies), and never
returns a question whose text already appears in a prior assistant
message. -/
theorem next_question_selection (questions : List DiagnosticQuestion)
    (detectedSymptoms : List String) (history : List ChatMessage)
    (language : String) :
    (getNextQuestion questions detectedSymptoms history language =
      ((questions.insertionSort byPriorityDesc).find?
        (qualifiesQ detectedSymptoms
          ((history.filter (fun m => m.role = "assistant")).map
            (fun m => m.content)) language)).map (toNextQuestion language)) ∧
    (∀ nq, getNextQuestion questions detectedSymptoms history language =
        some nq →
      ∀ m ∈ history, m.role = "assistant" →
        ¬ nq.question.data <:+: m.content.data) := by
  constructor
  · exact findQuestionLoop_eq_find _ _ _ _
  · intro nq hnq m hm hrole
    rw [show getNextQuestion questions detectedSymptoms history language =
        ((questions.insertionSort byPriorityDesc).find?
          (qualifiesQ detectedSymptoms
            ((history.filter (fun m => m.role = "assistant")).map
              (fun m => m.content)) language)).map (toNextQuestion language)
      from findQuestionLoop_eq_find _ _ _ _] at hnq
    rw [Option.map_eq_some'] at hnq
    obtain ⟨q, hfind, rfl⟩ := hnq
    have hqual := List.find?_some hfind
    unfold qualifiesQ at hqual
    rw [Bool.and_eq_true] at hqual
    obtain ⟨-, hnot⟩ := hqual
    rw [Bool.not_eq_true'] at hnot
    rw [List.any_eq_false] at hnot
    have hmem : m.content ∈ (history.filter
        (fun m => m.role = "assistant")).map (fun m => m.content) :=
      List.mem_map_of_mem _ (List.mem_filter.mpr ⟨hm, by simp [hrole]⟩)
    have hno := hnot _ hmem
    intro hinf
    apply hno
    unfold strIncludes
    exact decide_eq_true hinf

/-- Witness for C8 at concrete inputs: the selected question's text does not
occur in the only prior assistant message. -/
theorem next_question_selection_witness :
    ¬ ("Do you see orange pustules on the leaves?" : String).data <:+:
      ("Hello farmer" : String).data :=
  (next_question_selection [qOrange] ["rust_spots"] [msgHello] "en").2
    (toNextQuestion "en" qOrange) rfl msgHello (List.mem_singleton.mpr rfl)
    rfl

/-! ### C1, C2, C3: advisory composition -/

/-- The head of the score-sorted entry list carries the maximum score. -/
theorem head_insertionSort_max (probs : List (Nat × ℚ)) (top : Nat × ℚ)
    (rest : List (Nat × ℚ)) (mx : ℚ)
    (hsort : probs.insertionSort scoreDesc = top :: rest)
    (hmx : (probs.map Prod.snd).maximum = (mx : WithBot ℚ)) :
    top.2 = mx := by
  have hperm := List.perm_insertionSort scoreDesc probs
  rw [hsort] at hperm
  have hsorted := List.sorted_insertionSort scoreDesc probs
  rw [hsort] at hsorted
  have hle : ∀ p ∈ probs, p.2 ≤ top.2 := by
    intro p hp
    rcases List.mem_cons.mp (hperm.mem_iff.mpr hp) with h | h
    · rw [h]
    · exact (List.sorted_cons.mp hsorted).1 p h
  obtain ⟨p, hp, hp2⟩ := List.mem_map.mp (List.maximum_mem hmx)
  have h1 : mx ≤ top.2 := hp2 ▸ hle p hp
  have h2 : top.2 ≤ mx := by
    have htopmem : top ∈ probs := hperm.mem_iff.mp (List.mem_cons_self _ _)
    exact List.le_maximum_of_mem (List.mem_map_of_mem Prod.snd htopmem) hmx
  exact le_antisymm h2 h1

/-- C1: composing an advisory sets the escalated flag exactly when the top
(maximum) disease score is strictly below 0.6, and in the same operation the
conversation's status becomes escalated when the flag is set and completed
otherwise. -/
theorem advisory_escalation_threshold (diseases : List Disease)
    (conversation : Conversation) (language : String) (adv : Advisory)
    (conversation2 : Conversation) (mx : ℚ)
    (hok : composeAdvisory diseases conversation language =
      Except.ok (adv, conversation2))
    (hmx : (conversation.current_probabilities.map Prod.snd).maximum =
      (mx : WithBot ℚ)) :
    (adv.escalated = true ↔ mx < 3 / 5) ∧
    conversation2.status =
      (if adv.escalated then "escalated" else "completed") := by
  unfold composeAdvisory at hok
  dsimp only at hok
  split at hok
  · cases hok
  · split at hok
    next heq => cases hok
    next topDiseaseId confidence tail heq =>
      split at hok
      next hfind => cases hok
      next disease hfind =>
        rw [Except.ok.injEq, Prod.mk.injEq] at hok
        obtain ⟨hadv, hconv⟩ := hok
        have hmxeq : confidence = mx :=
          head_insertionSort_max _ _ _ _ heq hmx
        subst hmxeq
        constructor
        · rw [← hadv]
          simp
        · rw [← hadv, ← hconv]

/-- Witness for C1 at concrete inputs. -/
theorem advisory_escalation_threshold_witness :
    (advWheat.escalated = true ↔ (17 : ℚ) / 20 < 3 / 5) ∧
    convWheatDone.status =
      (if advWheat.escalated then "escalated" else "completed") :=
  advisory_escalation_threshold kbWheat.diseases convWheat "en" advWheat
    convWheatDone (17 / 20) rfl
    (by simp [convWheat, List.maximum_singleton])

/-- C2: composition fails with the no-evidence error exactly when the
probability mapping is empty; with at least one scored disease (and the top
disease present in the catalog) it succeeds. -/
theorem advisory_no_evidence (diseases : List Disease)
    (conversation : Conversation) (language : String) :
    (composeAdvisory diseases conversation language =
        Except.error ComposeError.noEvidence ↔
      conversation.current_probabilities = []) ∧
    (conversation.current_probabilities ≠ [] →
      (∀ i ∈ conversation.current_probabilities.map Prod.fst,
        (findDisease diseases i).isSome = true) →
      (composeAdvisory diseases conversation language).isOk = true) := by
  have hsort_ne : conversation.current_probabilities ≠ [] →
      ∀ (h : conversation.current_probabilities.insertionSort scoreDesc = []),
        False := by
    intro hne hs
    have hperm := List.perm_insertionSort scoreDesc
      conversation.current_probabilities
    rw [hs] at hperm
    exact hne (hperm.symm.eq_nil)
  constructor
  · constructor
    · intro herr
      by_contra hne
      unfold composeAdvisory at herr
      dsimp only at herr
      rw [if_neg (by simpa [List.isEmpty_iff] using hne)] at herr
      split at herr
      next heq => exact hsort_ne hne heq
      next ti c tail heq =>
        split at herr
        next hfind => exact ComposeError.noConfusion (Except.error.inj herr)
        next d hfind => cases herr
    · intro hnil
      unfold composeAdvisory
      dsimp only
      rw [if_pos (by simp [hnil])]
  · intro hne hfindall
    unfold composeAdvisory
    dsimp only
    rw [if_neg (by simpa [List.isEmpty_iff] using hne)]
    split
    next heq => exact absurd heq (hsort_ne hne)
    next ti c tail heq =>
      have hti : ti ∈ conversation.current_probabilities.map Prod.fst := by
        have hperm := List.perm_insertionSort scoreDesc
          conversation.current_probabilities
        rw [heq] at hperm
        exact List.mem_map_of_mem Prod.fst
          (hperm.mem_iff.mp (List.mem_cons_self _ _))
      obtain ⟨d, hd⟩ := Option.isSome_iff_exists.mp (hfindall ti hti)
      split
      next hfind =>
        rw [hfind] at hd
        cases hd
      next d2 hfind => rfl

/-- Witness for C2 at concrete inputs: a fresh conversation yields the
no-evidence error, the scored conversation composes successfully. -/
theorem advisory_no_evidence_witness :
    (composeAdvisory kbWheat.diseases convFresh "en" =
      Except.error ComposeError.noEvidence) ∧
    (composeAdvisory kbWheat.diseases convWheat "en").isOk = true :=
  ⟨(advisory_no_evidence kbWheat.diseases convFresh "en").1.mpr rfl,
   (advisory_no_evidence kbWheat.diseases convWheat "en").2
     (by simp [convWheat])
     (by
        intro i hi
        simp [convWheat] at hi
        subst hi
        rfl)⟩

/-- C3: two primary-indicator symptoms of Wheat Rust with weights 0.9 and
0.8 aggregate to min(1, 0.9*0.5 + 0.8*0.5) = 0.85, and composing from that
score yields confidence level High with no escalation. -/
theorem scenario_wheat_rust :
    calculateDiseaseProbabilities kbWheat
      ["orange_pustules", "rust_spots"] =
      [(10, min 1 ((9 : ℚ) / 10 * (1 / 2) + 4 / 5 * (1 / 2)))] ∧
    min 1 ((9 : ℚ) / 10 * (1 / 2) + 4 / 5 * (1 / 2)) = 17 / 20 ∧
    (composeAdvisory kbWheat.diseases convWheat "en").map
      (fun r => (r.1.confidenceLevel, r.1.escalated)) =
      Except.ok ("High", false) := by
  refine ⟨?_, ?_, ?_⟩
  · show [(10, min ((9 : ℚ) / 10 * (1 / 2) + 4 / 5 * (1 / 2)) 1)] =
      [(10, min 1 ((9 : ℚ) / 10 * (1 / 2) + 4 / 5 * (1 / 2)))]
    rw [min_comm]
  · have hv : (9 : ℚ) / 10 * (1 / 2) + 4 / 5 * (1 / 2) = 17 / 20 := by
      norm_num
    rw [hv, min_eq_right (by norm_num : (17 : ℚ) / 20 ≤ 1)]
  · have hcl : confidenceLevelText "en" (17 / 20) = "High" := by
      unfold confidenceLevelText
      rw [if_pos (by norm_num : (4 : ℚ) / 5 ≤ 17 / 20)]
      rfl
    have hesc : decide ((17 : ℚ) / 20 < 3 / 5) = false :=
      decide_eq_false (by norm_num)
    rw [show composeAdvisory kbWheat.diseases convWheat "en" =
      Except.ok (advWheat, convWheatDone) from rfl]
    show Except.ok (advWheat.confidenceLevel, advWheat.escalated) =
      Except.ok ("High", false)
    rw [show advWheat.confidenceLevel =
        confidenceLevelText "en" (17 / 20) from rfl, hcl,
      show advWheat.escalated = decide ((17 : ℚ) / 20 < 3 / 5) from rfl,
      hesc]

/-! ### C9: knowledge-base read failures are absorbed, not propagated -/

/-- C9 counterexample: with a non-empty evidence set and a failing symptoms
read, the aggregation returns the empty mapping as a success rather than
propagating the error. -/
theorem kb_error_swallowed_cex :
    calcProbsWithReads (Except.error KBError.unavailable) (Except.ok [])
      ["yellow_leaves"] = Except.ok [] ∧
    calcProbsWithReads (Except.error KBError.unavailable) (Except.ok [])
      ["yellow_leaves"] ≠ Except.error KBError.unavailable :=
  ⟨rfl, fun h => by
    rw [show calcProbsWithReads (Except.error KBError.unavailable)
      (Except.ok []) ["yellow_leaves"] = Except.ok [] from rfl] at h
    cases h⟩

/-- C9 amended: when either knowledge-base read fails during belief
aggregation over a non-empty evidence set, the failure is absorbed and the
function returns the empty probability mapping as a successful result. -/
theorem kb_error_absorbed (e : KBError)
    (mapRead : Except KBError (List SymptomDiseaseMapping))
    (detected : List String) (hne : detected ≠ []) :
    calcProbsWithReads (Except.error e) mapRead detected = Except.ok [] ∧
    (∀ matched : List Symptom, matched ≠ [] →
      calcProbsWithReads (Except.ok matched) (Except.error e) detected =
        Except.ok []) := by
  obtain ⟨c, cs, rfl⟩ := List.exists_cons_of_ne_nil hne
  constructor
  · rfl
  · intro matched hm
    obtain ⟨s, ss, rfl⟩ := List.exists_cons_of_ne_nil hm
    rfl

/-- Witness for the amended C9 at concrete inputs. -/
theorem kb_error_absorbed_witness :
    calcProbsWithReads (Except.error KBError.unavailable) (Except.ok [])
      ["wilting"] = Except.ok [] ∧
    calcProbsWithReads (Except.ok [symWilting])
      (Except.error KBError.unavailable) ["wilting"] = Except.ok [] :=
  ⟨(kb_error_absorbed KBError.unavailable (Except.ok []) ["wilting"]
      (by simp)).1,
   (kb_error_absorbed KBError.unavailable (Except.ok []) ["wilting"]
      (by simp)).2 _ (by simp)⟩

/-! ### C10: crop-filter fallback in symptom extraction -/

/-- C10: when the supplied crop has no diseases, or its diseases have no
weight-table rows, the candidate set silently falls back to the full
symptom catalog — detection behaves exactly as if no crop id had been
supplied. -/
theorem crop_filter_fallback (kb : KnowledgeBase) (message : String)
    (language : String) (cid : Nat)
    (hfall : kb.diseases.filter (fun d => d.crop_id = some cid) = [] ∨
      kb.mappings.filter (fun m => m.disease_id ∈
        (kb.diseases.filter (fun d => d.crop_id = some cid)).map
          (fun d => d.id)) = []) :
    detectSymptoms kb message language (some cid) =
      detectSymptoms kb message language none := by
  have hcand : candidateSymptoms kb (some cid) = kb.symptoms := by
    unfold candidateSymptoms
    rcases hfall with h | h
    · simp [h]
    · by_cases h1 : (kb.diseases.filter
          (fun d => d.crop_id = some cid)).isEmpty = true
      · simp [h1]
      · simp only [h1, Bool.false_eq_true, if_false]
        simp [h]
  unfold detectSymptoms
  rw [hcand]
  rfl

/-- Witness for C10 at concrete inputs: crop 2 has no diseases in the
sample catalog, so extraction matches the unfiltered behaviour. -/
theorem crop_filter_fallback_witness :
    detectSymptoms kbWheat "my wheat has orange pustules" "en" (some 2) =
      detectSymptoms kbWheat "my wheat has orange pustules" "en" none :=
  crop_filter_fallback kbWheat "my wheat has orange pustules" "en" 2
    (Or.inl rfl)

end KisaanSaathi
